import Mathlib

/-!
Shallow embedding of the ISDT Air BLE integration's core logic
(`parser.py`, `coordinator.py`, `const.py`).

Byte strings are modelled as `List Nat`; every byte read reduces the
stored value modulo 256, so a model input is interpreted exactly as the
Python `bytes` object whose elements are the inputs modulo 256.
Scaled values (`x / 1000.0`, `x / 10.0` in Python) are modelled in `ℚ`.
All functions are total; fallible parsers return `Option`, with `none`
standing for Python's early `return {}` / `return None`.
-/

/-- Python `data[i]` for an in-bounds index (all accesses in the source are
length-guarded); the value of a byte is its residue mod 256. -/
def byteAt (data : List Nat) (i : Nat) : Nat := data.getD i 0 % 256

/-- Python slice `data[a:b]` for `0 ≤ a ≤ b` (clamped at the list's end). -/
def pySlice (data : List Nat) (a b : Nat) : List Nat := (data.drop a).take (b - a)

/-- Python `int.from_bytes(bs, "little")`. -/
def leNat : List Nat → Nat
  | [] => 0
  | b :: bs => b % 256 + 256 * leNat bs

/-- Protocol constant from `const.py`: HardwareInfoResp command byte. -/
def RESP_HARDWARE_INFO : Nat := 0xE1

/-- Protocol constant from `const.py`: AlarmToneResp command byte. -/
def RESP_ALARM_TONE : Nat := 0x93

/-- Protocol constant from `const.py`: ElectricResp command byte. -/
def RESP_ELECTRIC : Nat := 0xE5

/-- Protocol constant from `const.py`: ChargerWorkStateResp command byte. -/
def RESP_WORKSTATE : Nat := 0xE7

/-- Protocol constant from `const.py`: IRResp command byte. -/
def RESP_IR : Nat := 0xFB

/-- Protocol constant from `const.py`: alarm-tone query `[0x12, 0x92]`. -/
def CMD_ALARM_TONE_REQ : List Nat := [0x12, 0x92]

/-- Protocol constant from `const.py`: electrical query `[0x12, 0xE4]`. -/
def CMD_ELECTRIC_REQ : List Nat := [0x12, 0xE4]

/-- Protocol constant from `const.py`: work-state query `[0x13, 0xE6]`. -/
def CMD_WORKSTATE_REQ : List Nat := [0x13, 0xE6]

/-- Protocol constant from `const.py`: internal-resistance query `[0x13, 0xFA]`. -/
def CMD_IR_REQ : List Nat := [0x13, 0xFA]

/-- The cell-collection loop shared by `parse_electric` and `parse_ir`:
read up to `n` little-endian 2-byte values starting at `pos`, stopping
as soon as `pos + 2` would run past the end of the frame
(`if pos + 2 <= len(data)` in the source). -/
def collect2LE (data : List Nat) : Nat → Nat → List Nat
  | _, 0 => []
  | pos, n + 1 =>
    if pos + 2 ≤ data.length then
      leNat (pySlice data pos (pos + 2)) :: collect2LE data (pos + 2) n
    else []

/-- Result dictionary of `parse_electric` (`parser.py`). -/
structure ElectricData where
  channel_id : Nat
  input_voltage : ℚ
  input_current : ℚ
  output_voltage : ℚ
  charging_current : ℚ
  cell_voltages : List ℚ
deriving DecidableEq, Repr

/-- `parse_electric` from `parser.py`.  Frames shorter than 15 bytes yield
`none` (the source returns `{}`).  The long format (`len > 35`) uses 4-byte
voltage fields and 16 cells; the short format 2-byte voltage fields and
8 cells.  The source appends `value / 1000.0` inside its cell loop; here the
raw values are collected by `collect2LE` and divided afterwards, which yields
the same list. -/
def parse_electric (data : List Nat) : Option ElectricData :=
  if data.length < 15 then none
  else
    let channel_id := byteAt data 2
    let long_fmt := 35 < data.length
    let input_v : ℚ :=
      if long_fmt then (leNat (pySlice data 3 7) : ℚ) / 1000
      else (leNat (pySlice data 3 5) : ℚ) / 1000
    let pos0 := if long_fmt then 7 else 5
    let input_a : ℚ := (leNat (pySlice data pos0 (pos0 + 4)) : ℚ) / 1000
    let pos1 := pos0 + 4
    let output_v : ℚ :=
      if long_fmt then (leNat (pySlice data pos1 (pos1 + 4)) : ℚ) / 1000
      else (leNat (pySlice data pos1 (pos1 + 2)) : ℚ) / 1000
    let pos2 := if long_fmt then pos1 + 4 else pos1 + 2
    let charge_a : ℚ := (leNat (pySlice data pos2 (pos2 + 4)) : ℚ) / 1000
    let pos3 := pos2 + 4
    let num_cells := if long_fmt then 16 else 8
    let cell_voltages := (collect2LE data pos3 num_cells).map (fun v : Nat => (v : ℚ) / 1000)
    some ⟨channel_id, input_v, input_a, output_v, charge_a, cell_voltages⟩

/-- `WORK_STATE_MAP.get(code, f"unknown_{code}")` from `const.py`. -/
def WORK_STATE_MAP (code : Nat) : String :=
  if code = 0 then "idle"
  else if code = 1 then "charging"
  else if code = 2 then "charging"
  else if code = 3 then "charging"
  else if code = 4 then "charging"
  else if code = 5 then "error"
  else if code = 6 then "done"
  else "unknown_" ++ toString code

/-- `BATTERY_TYPE_MAP.get(code, f"unknown_{code}")` from `const.py`. -/
def BATTERY_TYPE_MAP (code : Nat) : String :=
  if code = 0 then "LiHV"
  else if code = 1 then "LiIon"
  else if code = 2 then "LiFe"
  else if code = 3 then "NiZn"
  else if code = 4 then "NiMH/Cd"
  else if code = 5 then "LiIon"
  else if code = 6 then "Auto"
  else "unknown_" ++ toString code

/-- Python `f"{n:02d}"` for a non-negative integer: zero-pad to two digits,
longer numbers are rendered unchanged. -/
def pad2 (n : Nat) : String := if n < 10 then "0" ++ toString n else toString n

/-- Result dictionary of `parse_workstate` (`parser.py`).  The source also
computes `channel_id` but does not place it in the returned dict. -/
structure WorkstateData where
  work_state : Nat
  work_state_str : String
  capacity_percentage : Nat
  capacity_done : Nat
  energy_done : Nat
  energy_done_wh : ℚ
  work_period : Nat
  work_period_ms : Nat
  work_period_str : String
  battery_type : Nat
  battery_type_str : String
  unit_serials_num : Nat
  link_type : Nat
  full_charged_volt : ℚ
  work_current : ℚ
  charging_battery_num_whole : Nat
  charging_battery_num_current : Nat
  min_input_volt : ℚ
  max_output_power : ℚ
  error_code : Nat
  parallel_state : Option Bool
deriving DecidableEq, Repr

/-- `parse_workstate` from `parser.py`.  Frames shorter than 38 bytes yield
`none` (the source returns `{}`). -/
def parse_workstate (data : List Nat) : Option WorkstateData :=
  if data.length < 38 then none
  else
    let work_state := byteAt data 3
    let capacity_percentage := byteAt data 4
    let capacity_done := leNat (pySlice data 5 9)
    let energy_done := leNat (pySlice data 9 13)
    let work_period_ms := leNat (pySlice data 13 17)
    let work_period := work_period_ms / 1000
    let battery_type := byteAt data 17
    let unit_serials_num := byteAt data 18
    let link_type := byteAt data 19
    let full_charged_volt : ℚ := (leNat (pySlice data 20 22) : ℚ) / 1000
    let work_current : ℚ := (leNat (pySlice data 22 26) : ℚ) / 1000
    let charging_battery_num_whole := leNat (pySlice data 26 28)
    let charging_battery_num_current := leNat (pySlice data 28 30)
    let min_input_volt : ℚ := (leNat (pySlice data 30 32) : ℚ) / 1000
    let max_output_power : ℚ := (leNat (pySlice data 32 36) : ℚ) / 1000
    let error_code := leNat (pySlice data 36 38)
    let parallel_state : Option Bool :=
      if 38 < data.length then some (byteAt data 38 == 1) else none
    let hours := work_period / 3600
    let rem := work_period % 3600
    let minutes := rem / 60
    let seconds := rem % 60
    some {
      work_state := work_state
      work_state_str := WORK_STATE_MAP work_state
      capacity_percentage := capacity_percentage
      capacity_done := capacity_done
      energy_done := energy_done
      energy_done_wh := (energy_done : ℚ) / 1000
      work_period := work_period
      work_period_ms := work_period_ms
      work_period_str := pad2 hours ++ ":" ++ pad2 minutes ++ ":" ++ pad2 seconds
      battery_type := battery_type
      battery_type_str := BATTERY_TYPE_MAP battery_type
      unit_serials_num := unit_serials_num
      link_type := link_type
      full_charged_volt := full_charged_volt
      work_current := work_current
      charging_battery_num_whole := charging_battery_num_whole
      charging_battery_num_current := charging_battery_num_current
      min_input_volt := min_input_volt
      max_output_power := max_output_power
      error_code := error_code
      parallel_state := parallel_state }

/-- Result dictionary of `parse_ir` (`parser.py`). -/
structure IRData where
  ir_raw : List Nat
  ir_mohm : Option ℚ
deriving DecidableEq, Repr

/-- `parse_ir` from `parser.py`.  Frames shorter than 5 bytes yield `none`
(the source returns `{}`).  The source reads each value as
`data[pos] | (data[pos+1] << 8)`, which is the 2-byte little-endian value
collected by `collect2LE`. -/
def parse_ir (data : List Nat) : Option IRData :=
  if data.length < 5 then none
  else
    let payload_len := data.length
    let num_cells :=
      if 20 ≤ payload_len then 16
      else if 15 < payload_len then 8
      else if payload_len = 15 then 6
      else (payload_len - 3) / 2
    let ir_values := collect2LE data 3 num_cells
    let ir_mohm : Option ℚ :=
      match ir_values with
      | [] => none
      | v :: _ => if 0 < v ∧ v < 10000 then some ((v : ℚ) / 10) else none
    some ⟨ir_values, ir_mohm⟩

/-- One uppercase hexadecimal digit (`0`–`9`, `A`–`F`). -/
def hexDigitU (n : Nat) : Char :=
  if n < 10 then Char.ofNat (48 + n) else Char.ofNat (55 + n)

/-- Python `f"{n:016X}"` for `n < 16^16`: 16 uppercase hex digits, zero-padded.
The only value formatted this way in the source is an 8-byte little-endian
device identifier, which is always below `16^16`. -/
def hex16 (n : Nat) : String :=
  ⟨(List.range 16).map fun i => hexDigitU (n / 16 ^ (15 - i) % 16)⟩

/-- Tail of `parse_hardware_info` once the command-byte offset is known:
the length re-check (`needed = offset + 13`) and the field extraction. -/
def parseHardwareInfoAt (data : List Nat) (offset : Nat) : Option (String × String × String) :=
  if data.length < offset + 13 then none
  else
    let hw_version := toString (byteAt data (offset + 1)) ++ "." ++ toString (byteAt data (offset + 2))
    let sw_version := toString (byteAt data (offset + 3)) ++ "." ++ toString (byteAt data (offset + 4))
    let device_id := leNat (pySlice data (offset + 5) (offset + 13))
    some (hw_version, sw_version, hex16 device_id)

/-- `parse_hardware_info` from `parser.py`: the command byte may sit at
offset 0 (no address prefix) or offset 1 (with prefix); offset 0 is checked
first.  Returns `(hw_version, sw_version, serial_number)` or `none`. -/
def parse_hardware_info (data : List Nat) : Option (String × String × String) :=
  if data.length < 5 then none
  else if byteAt data 0 = RESP_HARDWARE_INFO then parseHardwareInfoAt data 0
  else if 1 < data.length ∧ byteAt data 1 = RESP_HARDWARE_INFO then parseHardwareInfoAt data 1
  else none

/-- One per-channel dictionary inside the `parsed` map of `parse_responses`.
The three decoders contribute pairwise-disjoint key sets, and each decoder
always returns its full key set, so `parsed[ch].update(...)` either leaves a
component untouched or replaces it wholesale; the empty Python dict `{}` is
the record with all three components `none`. -/
structure ChannelDict where
  electric : Option ElectricData := none
  workstate : Option WorkstateData := none
  ir : Option IRData := none
deriving DecidableEq, Repr

/-- The initial `parsed = {ch: {} for ch in range(6)}` dictionary, as an
association list in insertion order. -/
def initChanMap : List (Nat × ChannelDict) := (List.range 6).map fun ch => (ch, {})

/-- Apply `f` to the entry stored under key `ch` (Python
`parsed[ch].update(...)`); entries under other keys are unchanged. -/
def updateChan (m : List (Nat × ChannelDict)) (ch : Nat)
    (f : ChannelDict → ChannelDict) : List (Nat × ChannelDict) :=
  m.map fun p => if p.1 = ch then (p.1, f p.2) else p

/-- Loop state of `parse_responses`: the channel map and the alarm-tone
tri-state. -/
structure ParseState where
  parsed : List (Nat × ChannelDict)
  alarm : Option Bool
deriving DecidableEq, Repr

/-- The body of the `for raw in responses` loop of `parse_responses`. -/
def parseStep (st : ParseState) (raw : List Nat) : ParseState :=
  if raw.length < 3 then st
  else
    let cmd := byteAt raw 1
    if cmd = RESP_ALARM_TONE then { st with alarm := some (byteAt raw 2 != 0) }
    else
      let ch := byteAt raw 2
      if (st.parsed.lookup ch).isNone then st
      else if cmd = RESP_ELECTRIC then
        { st with parsed := updateChan st.parsed ch fun d =>
            match parse_electric raw with
            | none => d
            | some e => { d with electric := some e } }
      else if cmd = RESP_WORKSTATE then
        { st with parsed := updateChan st.parsed ch fun d =>
            match parse_workstate raw with
            | none => d
            | some w => { d with workstate := some w } }
      else if cmd = RESP_IR then
        { st with parsed := updateChan st.parsed ch fun d =>
            match parse_ir raw with
            | none => d
            | some r => { d with ir := some r } }
      else st

/-- `parse_responses` from `parser.py`: fold the loop body over the queued
frames, starting from the six empty channel dicts and an unknown alarm
state.  Returns `(parsed, alarm_tone_on)`. -/
def parse_responses (responses : List (List Nat)) :
    List (Nat × ChannelDict) × Option Bool :=
  let st := responses.foldl parseStep ⟨initChanMap, none⟩
  (st.parsed, st.alarm)

/-- A published snapshot: the channel map plus the `"_device"` metadata entry
(`{"rssi": ...}`) that `_collect_and_push` merges in just before publishing. -/
structure PushedData where
  channels : List (Nat × ChannelDict)
  rssi : Option Int
deriving DecidableEq, Repr

/-- The coordinator state touched by `_collect_and_push`:
`_last_pushed_data` and `_alarm_tone_on`. -/
structure CoordState where
  lastPushed : Option PushedData
  alarmTone : Option Bool
deriving DecidableEq, Repr

/-- `_sensor_data_changed` from `coordinator.py`: compare the freshly parsed
channel map, key by key, against the last push.  The `key == "_device"`
guard of the source never fires here because a freshly parsed map carries
only the integer channel keys; the metadata of the last push is stored
outside `channels` and is therefore (exactly as in the source, where
`last.get(key)` is only evaluated at integer keys) excluded from the
comparison. -/
def sensor_data_changed (lastPushed : Option PushedData)
    (parsed : List (Nat × ChannelDict)) : Bool :=
  match lastPushed with
  | none => true
  | some lp => parsed.any fun p => !(lp.channels.lookup p.1 == some p.2)

/-- `_collect_and_push` from `coordinator.py`, restricted to the state it
reads and writes: consume the batch of queued responses, parse them, store
the alarm-tone state, and publish a fresh snapshot (with the current rssi
merged in) unless a previous push exists and nothing changed.  The
hardware-info/device-registry steps touch unrelated state and are omitted.
Returns the new state and the snapshot published this cycle (`none` =
nothing published). -/
def collect_and_push (st : CoordState) (responses : List (List Nat))
    (rssi : Option Int) : CoordState × Option PushedData :=
  if responses.isEmpty then (st, none)
  else
    let pr := parse_responses responses
    let st1 : CoordState := { st with alarmTone := pr.2 }
    if st1.lastPushed.isSome && !(sensor_data_changed st1.lastPushed pr.1) then
      (st1, none)
    else
      let pd : PushedData := ⟨pr.1, rssi⟩
      ({ st1 with lastPushed := some pd }, some pd)

/-- `_BACKOFF_MIN` from `coordinator.py`. -/
def _BACKOFF_MIN : Nat := 5

/-- `_BACKOFF_MAX` from `coordinator.py`. -/
def _BACKOFF_MAX : Nat := 300

/-- Events the reconnect loop's backoff variable reacts to: a timed-out
advertisement wait (`backoff = min(backoff * 2, _BACKOFF_MAX)`) or a
successful connect (`backoff = _BACKOFF_MIN`, line 195 of
`coordinator.py`). -/
inductive ConnEvent where
  | timeout
  | connected
deriving DecidableEq, Repr

/-- The update applied to `backoff` in `_live_monitoring_loop`. -/
def backoffStep (b : Nat) : ConnEvent → Nat
  | .timeout => min (b * 2) _BACKOFF_MAX
  | .connected => _BACKOFF_MIN

/-- The wait duration used for the `n`-th consecutive timed-out
advertisement wait (0-indexed): `backoff` starts at `_BACKOFF_MIN` and is
doubled (capped) after every timeout. -/
def backoffAfter : Nat → Nat
  | 0 => _BACKOFF_MIN
  | n + 1 => backoffStep (backoffAfter n) .timeout

/-- Elapsed time, in seconds since the device vanished, at which the loop
wakes for the `n`-th time (0-indexed) and re-attempts, when every wait times
out: the cumulative sum of the wait durations. -/
def attemptTime : Nat → Nat
  | 0 => backoffAfter 0
  | n + 1 => attemptTime n + backoffAfter (n + 1)

/-- `_build_command_list` from `coordinator.py`: the alarm-tone query, then
for each channel 0–5 the work-state, electrical and internal-resistance
queries, each with the channel index appended as the final payload byte. -/
def _build_command_list : List (List Nat) :=
  [CMD_ALARM_TONE_REQ] ++
    ((List.range 6).map fun ch =>
      [CMD_WORKSTATE_REQ ++ [ch], CMD_ELECTRIC_REQ ++ [ch], CMD_IR_REQ ++ [ch]]).flatten

/-- The scheduler's index update
(`cmd_index = (cmd_index + 1) % len(self._commands)`). -/
def nextCmdIndex (i : Nat) : Nat := (i + 1) % _build_command_list.length

/-- Whether response collection fires after the command at index `i`
(`if cmd_index == 0` after the increment). -/
def collectAt (i : Nat) : Prop := nextCmdIndex i = 0

/-- The number of cells `parse_ir` infers from the total frame length
(before truncation by the available bytes). -/
def irNumCells (payload_len : Nat) : Nat :=
  if 20 ≤ payload_len then 16
  else if 15 < payload_len then 8
  else if payload_len = 15 then 6
  else (payload_len - 3) / 2

/-- Minimum valid frame length enforced by the per-command decoder
(below it the decoder returns the empty dict and the frame contributes
nothing); 3 is the dispatcher's own minimum. -/
def minRespLen (cmd : Nat) : Nat :=
  if cmd = RESP_ELECTRIC then 15
  else if cmd = RESP_WORKSTATE then 38
  else if cmd = RESP_IR then 5
  else 3

/-- A frame `parse_responses` skips without contributing anything: too short
for the dispatcher, unknown command byte, channel byte outside `[0, 6)`, or
shorter than the minimum valid length for its (known, channel-scoped)
command. -/
def skippedFrame (raw : List Nat) : Prop :=
  raw.length < 3 ∨
    (byteAt raw 1 ≠ RESP_ALARM_TONE ∧
      ((byteAt raw 1 ≠ RESP_ELECTRIC ∧ byteAt raw 1 ≠ RESP_WORKSTATE ∧
        byteAt raw 1 ≠ RESP_IR) ∨
       6 ≤ byteAt raw 2 ∨
       raw.length < minRespLen (byteAt raw 1)))

/-- A frame that contributes telemetry to channel `ch`: long enough for the
dispatcher, addressed to `ch`, carrying a known channel-scoped command, and
long enough for that command's decoder to return a non-empty dict. -/
def suppliesData (raw : List Nat) (ch : Nat) : Prop :=
  3 ≤ raw.length ∧ byteAt raw 2 = ch ∧
    ((byteAt raw 1 = RESP_ELECTRIC ∧ 15 ≤ raw.length) ∨
     (byteAt raw 1 = RESP_WORKSTATE ∧ 38 ≤ raw.length) ∨
     (byteAt raw 1 = RESP_IR ∧ 5 ≤ raw.length))

/-- Closed form of the cell-collection loop: it yields exactly
`min n ((len - pos) / 2)` values, the `i`-th being the little-endian value
of the two bytes at `pos + 2 * i`. -/
theorem collect2LE_eq (data : List Nat) : ∀ (n pos : Nat),
    collect2LE data pos n =
      (List.range (min n ((data.length - pos) / 2))).map
        (fun i => leNat (pySlice data (pos + 2 * i) (pos + 2 * i + 2)))
  | 0, pos => by simp [collect2LE]
  | n + 1, pos => by
    by_cases h : pos + 2 ≤ data.length
    · have hmin : min (n + 1) ((data.length - pos) / 2)
          = min n ((data.length - (pos + 2)) / 2) + 1 := by omega
      rw [collect2LE, if_pos h, collect2LE_eq data n (pos + 2), hmin,
        List.range_succ_eq_map]
      simp only [List.map_cons, List.map_map, Nat.mul_zero, Nat.add_zero]
      refine congrArg₂ List.cons rfl ?_
      have hfun : (fun i => leNat (pySlice data (pos + 2 + 2 * i) (pos + 2 + 2 * i + 2)))
          = ((fun i => leNat (pySlice data (pos + 2 * i) (pos + 2 * i + 2))) ∘ Nat.succ) := by
        funext i
        have h1 : pos + 2 + 2 * i = pos + 2 * Nat.succ i := by omega
        simp only [Function.comp_apply, h1]
      rw [hfun]
    · have h0 : (data.length - pos) / 2 = 0 := by omega
      rw [collect2LE, if_neg h, h0]
      simp

/-- `parse_electric` fails exactly on frames shorter than 15 bytes. -/
theorem parse_electric_eq_none_iff (data : List Nat) :
    parse_electric data = none ↔ data.length < 15 := by
  rw [parse_electric]
  split <;> simp_all

/-- `parse_workstate` fails exactly on frames shorter than 38 bytes. -/
theorem parse_workstate_eq_none_iff (data : List Nat) :
    parse_workstate data = none ↔ data.length < 38 := by
  rw [parse_workstate]
  split <;> simp_all

/-- `parse_ir` fails exactly on frames shorter than 5 bytes. -/
theorem parse_ir_eq_none_iff (data : List Nat) :
    parse_ir data = none ↔ data.length < 5 := by
  rw [parse_ir]
  split <;> simp_all

/-- Looking a key up after `updateChan`: the updated key's value is mapped
through `f`, every other key is untouched. -/
theorem lookup_updateChan (m : List (Nat × ChannelDict)) (ch ch' : Nat)
    (f : ChannelDict → ChannelDict) :
    (updateChan m ch' f).lookup ch =
      if ch = ch' then (m.lookup ch).map f else m.lookup ch := by
  induction m with
  | nil => by_cases h : ch = ch' <;> simp [updateChan, h]
  | cons hd tl ih =>
    obtain ⟨k, v⟩ := hd
    simp only [updateChan, List.map_cons] at *
    by_cases hk : k = ch'
    · subst hk
      by_cases hck : ch = k
      · subst hck
        simp [List.lookup_cons, ih]
      · simp [List.lookup_cons, beq_false_of_ne hck, ih, if_neg hck]
    · rw [if_neg hk]
      by_cases hck : ch = k
      · subst hck
        simp [List.lookup_cons, hk]
      · simp [List.lookup_cons, beq_false_of_ne hck, ih]

/-- `updateChan` preserves the key sequence. -/
theorem keys_updateChan (m : List (Nat × ChannelDict)) (ch : Nat)
    (f : ChannelDict → ChannelDict) :
    (updateChan m ch f).map Prod.fst = m.map Prod.fst := by
  simp only [updateChan, List.map_map]
  congr 1
  funext p
  by_cases h : p.1 = ch <;> simp [h]

/-- Updating with the identity leaves the map unchanged. -/
theorem updateChan_id (m : List (Nat × ChannelDict)) (ch : Nat) :
    updateChan m ch (fun d => d) = m := by
  simp only [updateChan]
  have : (fun p : Nat × ChannelDict => if p.1 = ch then (p.1, p.2) else p)
      = fun p => p := by
    funext p
    by_cases h : p.1 = ch
    · rw [if_pos h]
    · rw [if_neg h]
  rw [this, List.map_id']


/-- A key absent from the key sequence looks up to `none`. -/
theorem lookup_eq_none_of_not_mem_keys (m : List (Nat × ChannelDict)) (ch : Nat)
    (h : ch ∉ m.map Prod.fst) : m.lookup ch = none := by
  induction m with
  | nil => rfl
  | cons hd tl ih =>
    obtain ⟨k, v⟩ := hd
    simp only [List.map_cons, List.mem_cons, not_or] at h
    simp [List.lookup_cons, beq_false_of_ne h.1, ih h.2]

/-- With duplicate-free keys, each stored pair is found by lookup. -/
theorem lookup_eq_some_self (m : List (Nat × ChannelDict))
    (p : Nat × ChannelDict) (hnd : (m.map Prod.fst).Nodup) (hp : p ∈ m) :
    m.lookup p.1 = some p.2 := by
  induction m with
  | nil => cases hp
  | cons hd tl ih =>
    obtain ⟨k, v⟩ := hd
    simp only [List.map_cons, List.nodup_cons] at hnd
    rcases List.mem_cons.mp hp with h | h
    · subst h
      simp [List.lookup_cons]
    · have hne : p.1 ≠ k := by
        intro hc
        exact hnd.1 (hc ▸ List.mem_map_of_mem Prod.fst h)
      simp [List.lookup_cons, beq_false_of_ne hne, ih hnd.2 h]

/-- A key present in the key sequence looks up to some value. -/
theorem exists_lookup_of_mem_keys (m : List (Nat × ChannelDict)) (ch : Nat)
    (h : ch ∈ m.map Prod.fst) : ∃ v, m.lookup ch = some v := by
  induction m with
  | nil => cases h
  | cons hd tl ih =>
    obtain ⟨k, v⟩ := hd
    by_cases hck : ch = k
    · exact ⟨v, by simp [List.lookup_cons, hck]⟩
    · simp only [List.map_cons, List.mem_cons] at h
      rcases h with h | h
      · exact absurd h hck
      · obtain ⟨w, hw⟩ := ih h
        exact ⟨w, by simp [List.lookup_cons, beq_false_of_ne hck, hw]⟩

/-- A successful lookup comes from a stored pair. -/
theorem mem_of_lookup_eq_some (m : List (Nat × ChannelDict)) (ch : Nat)
    (v : ChannelDict) (h : m.lookup ch = some v) : (ch, v) ∈ m := by
  induction m with
  | nil => cases h
  | cons hd tl ih =>
    obtain ⟨k, w⟩ := hd
    by_cases hck : ch = k
    · subst hck
      simp [List.lookup_cons] at h
      simp [h]
    · simp only [List.lookup_cons, beq_false_of_ne hck] at h
      exact List.mem_cons_of_mem _ (ih h)

/-- The dispatcher's loop body never adds or removes channel keys. -/
theorem keys_parseStep (st : ParseState) (raw : List Nat) :
    (parseStep st raw).parsed.map Prod.fst = st.parsed.map Prod.fst := by
  simp only [parseStep]
  repeat' split
  all_goals simp [keys_updateChan]

/-- Frames that are not alarm-tone frames leave the alarm state alone. -/
theorem alarm_parseStep (st : ParseState) (raw : List Nat)
    (h : ¬(3 ≤ raw.length ∧ byteAt raw 1 = RESP_ALARM_TONE)) :
    (parseStep st raw).alarm = st.alarm := by
  simp only [parseStep]
  by_cases h1 : raw.length < 3
  · rw [if_pos h1]
  · rw [if_neg h1]
    have h2 : ¬ byteAt raw 1 = RESP_ALARM_TONE := fun hc => h ⟨by omega, hc⟩
    rw [if_neg h2]
    repeat' split
    all_goals rfl

/-- A frame that does not supply data for channel `ch` leaves the entry of
`ch` untouched. -/
theorem lookup_parseStep_not_supplies (st : ParseState) (raw : List Nat)
    (ch : Nat) (h : ¬ suppliesData raw ch) :
    (parseStep st raw).parsed.lookup ch = st.parsed.lookup ch := by
  simp only [parseStep]
  by_cases h1 : raw.length < 3
  · rw [if_pos h1]
  · rw [if_neg h1]
    by_cases h2 : byteAt raw 1 = RESP_ALARM_TONE
    · rw [if_pos h2]
    · rw [if_neg h2]
      by_cases h3 : (st.parsed.lookup (byteAt raw 2)).isNone
      · rw [if_pos h3]
      · rw [if_neg h3]
        by_cases hE : byteAt raw 1 = RESP_ELECTRIC
        · rw [if_pos hE]
          dsimp only
          rw [lookup_updateChan]
          by_cases hch : ch = byteAt raw 2
          · have hlen : raw.length < 15 := by
              by_contra hc
              exact h ⟨by omega, hch.symm, Or.inl ⟨hE, by omega⟩⟩
            have hpe : parse_electric raw = none :=
              (parse_electric_eq_none_iff raw).mpr hlen
            rw [if_pos hch]
            simp only [hpe]
            cases st.parsed.lookup ch <;> rfl
          · rw [if_neg hch]
        · rw [if_neg hE]
          by_cases hW : byteAt raw 1 = RESP_WORKSTATE
          · rw [if_pos hW]
            dsimp only
            rw [lookup_updateChan]
            by_cases hch : ch = byteAt raw 2
            · have hlen : raw.length < 38 := by
                by_contra hc
                exact h ⟨by omega, hch.symm, Or.inr (Or.inl ⟨hW, by omega⟩)⟩
              have hpw : parse_workstate raw = none :=
                (parse_workstate_eq_none_iff raw).mpr hlen
              rw [if_pos hch]
              simp only [hpw]
              cases st.parsed.lookup ch <;> rfl
            · rw [if_neg hch]
          · rw [if_neg hW]
            by_cases hI : byteAt raw 1 = RESP_IR
            · rw [if_pos hI]
              dsimp only
              rw [lookup_updateChan]
              by_cases hch : ch = byteAt raw 2
              · have hlen : raw.length < 5 := by
                  by_contra hc
                  exact h ⟨by omega, hch.symm, Or.inr (Or.inr ⟨hI, by omega⟩)⟩
                have hpi : parse_ir raw = none :=
                  (parse_ir_eq_none_iff raw).mpr hlen
                rw [if_pos hch]
                simp only [hpi]
                cases st.parsed.lookup ch <;> rfl
              · rw [if_neg hch]
            · rw [if_neg hI]

/-- On a state whose key sequence is the six channels, a skipped frame is a
no-op for the whole loop state. -/
theorem parseStep_skipped (st : ParseState) (raw : List Nat)
    (hkeys : st.parsed.map Prod.fst = [0, 1, 2, 3, 4, 5])
    (h : skippedFrame raw) : parseStep st raw = st := by
  simp only [parseStep]
  by_cases h1 : raw.length < 3
  · rw [if_pos h1]
  · rw [if_neg h1]
    rcases h with h | ⟨halarm, hrest⟩
    · exact absurd h h1
    · rw [if_neg halarm]
      by_cases h3 : (st.parsed.lookup (byteAt raw 2)).isNone
      · rw [if_pos h3]
      · rw [if_neg h3]
        rcases hrest with ⟨hE, hW, hI⟩ | hch | hlen
        · rw [if_neg hE, if_neg hW, if_neg hI]
        · exfalso
          apply h3
          rw [lookup_eq_none_of_not_mem_keys st.parsed (byteAt raw 2) ?_]
          · rfl
          · rw [hkeys]
            simp only [List.mem_cons, List.not_mem_nil, or_false]
            omega
        · by_cases hE : byteAt raw 1 = RESP_ELECTRIC
          · rw [if_pos hE]
            rw [hE] at hlen
            have hpe : parse_electric raw = none :=
              (parse_electric_eq_none_iff raw).mpr (by
                have : minRespLen RESP_ELECTRIC = 15 := by decide
                omega)
            simp only [hpe]
            rw [updateChan_id]
          · rw [if_neg hE]
            by_cases hW : byteAt raw 1 = RESP_WORKSTATE
            · rw [if_pos hW]
              rw [hW] at hlen
              have hpw : parse_workstate raw = none :=
                (parse_workstate_eq_none_iff raw).mpr (by
                  have : minRespLen RESP_WORKSTATE = 38 := by decide
                  omega)
              simp only [hpw]
              rw [updateChan_id]
            · rw [if_neg hW]
              by_cases hI : byteAt raw 1 = RESP_IR
              · rw [if_pos hI]
                rw [hI] at hlen
                have hpi : parse_ir raw = none :=
                  (parse_ir_eq_none_iff raw).mpr (by
                    have : minRespLen RESP_IR = 5 := by decide
                    omega)
                simp only [hpi]
                rw [updateChan_id]
              · rw [if_neg hI]

/-- The fold of the loop body preserves the key sequence. -/
theorem keys_foldl (rs : List (List Nat)) : ∀ st : ParseState,
    (rs.foldl parseStep st).parsed.map Prod.fst = st.parsed.map Prod.fst := by
  induction rs with
  | nil => intro st; rfl
  | cons r rs ih =>
    intro st
    rw [List.foldl_cons, ih, keys_parseStep]

/-- The key sequence of the returned channel map is always the six channel
indices in order. -/
theorem keys_parse_responses (rs : List (List Nat)) :
    (parse_responses rs).1.map Prod.fst = [0, 1, 2, 3, 4, 5] := by
  show ((rs.foldl parseStep ⟨initChanMap, none⟩).parsed).map Prod.fst = _
  rw [keys_foldl]
  decide

/-- If no frame of the batch supplies data for channel `ch`, the fold leaves
that channel's entry untouched. -/
theorem lookup_foldl_not_supplies (rs : List (List Nat)) : ∀ st : ParseState,
    ∀ ch : Nat, (∀ raw ∈ rs, ¬ suppliesData raw ch) →
      (rs.foldl parseStep st).parsed.lookup ch = st.parsed.lookup ch := by
  induction rs with
  | nil => intro st ch _; rfl
  | cons r rs ih =>
    intro st ch h
    rw [List.foldl_cons, ih _ ch fun raw hm => h raw (List.mem_cons_of_mem _ hm),
      lookup_parseStep_not_supplies _ _ _ (h r (List.mem_cons_self _ _))]

/-- If no frame of the batch is an alarm-tone frame, the fold leaves the
alarm state untouched. -/
theorem alarm_foldl_no_alarm (rs : List (List Nat)) : ∀ st : ParseState,
    (∀ raw ∈ rs, ¬(3 ≤ raw.length ∧ byteAt raw 1 = RESP_ALARM_TONE)) →
      (rs.foldl parseStep st).alarm = st.alarm := by
  induction rs with
  | nil => intro st _; rfl
  | cons r rs ih =>
    intro st h
    rw [List.foldl_cons, ih _ fun raw hm => h raw (List.mem_cons_of_mem _ hm),
      alarm_parseStep _ _ (h r (List.mem_cons_self _ _))]

/-- C5 (amended): the advertisement-wait timeout starts at 5 s, doubles
after each timed-out wait, is capped at the 300 s ceiling, and is reset to
5 s on any successful connect; consequently, with the advertisement absent,
the loop wakes for reconnect attempts at t = 5, 15, 35, 75, 155, 315
seconds, and only at t = 615 thereafter — so with the advertisement absent
for 400 s the attempts within the window are exactly at
t = 5, 15, 35, 75, 155, 315. -/
theorem c5_backoff_schedule :
    backoffAfter 0 = 5 ∧
    (∀ b, backoffStep b .connected = 5) ∧
    (∀ n, backoffAfter (n + 1) = min (backoffAfter n * 2) 300) ∧
    [attemptTime 0, attemptTime 1, attemptTime 2, attemptTime 3, attemptTime 4,
      attemptTime 5] = [5, 15, 35, 75, 155, 315] ∧
    (∀ n, 6 ≤ n → backoffAfter n = 300) ∧
    attemptTime 6 = 615 := by
  refine ⟨rfl, fun b => rfl, fun n => rfl, by decide, ?_, by decide⟩
  intro n hn
  obtain ⟨m, rfl⟩ : ∃ m, n = 6 + m := ⟨n - 6, by omega⟩
  induction m with
  | zero => decide
  | succ k ih =>
    have h1 : 6 + (k + 1) = (6 + k) + 1 := by omega
    rw [h1]
    show backoffStep (backoffAfter (6 + k)) .timeout = 300
    rw [ih (by omega)]
    decide

/-- C5 witness: the wait used after the seventh consecutive timeout is the
300 s ceiling. -/
theorem c5_backoff_schedule_witness : backoffAfter 7 = 300 :=
  c5_backoff_schedule.2.2.2.2.1 7 (by omega)

/-- C5 counterexample: the sixth reconnect attempt happens at t = 315 s, not
t = 300 s, and the seventh at t = 615 s — outside a 400 s window — so the
claimed attempt schedule 5, 15, 35, 75, 155, 300, 300 is wrong from the
sixth attempt on. -/
theorem c5_attempt_times_counterexample :
    attemptTime 5 = 315 ∧ (315 : Nat) ≠ 300 ∧ attemptTime 6 = 615 ∧
      ¬(615 ≤ 400) := by decide

/-- C7: the command list is exactly the alarm-tone query followed, for each
channel 0–5 in order, by the work-state, electrical and internal-resistance
queries with the channel index appended as the final payload byte — 19
commands in total; the scheduler index always advances modulo 19, and
response collection fires exactly at the wrap from index 18 back to 0. -/
theorem c7_command_cycle :
    _build_command_list =
      [[0x12, 0x92],
       [0x13, 0xE6, 0], [0x12, 0xE4, 0], [0x13, 0xFA, 0],
       [0x13, 0xE6, 1], [0x12, 0xE4, 1], [0x13, 0xFA, 1],
       [0x13, 0xE6, 2], [0x12, 0xE4, 2], [0x13, 0xFA, 2],
       [0x13, 0xE6, 3], [0x12, 0xE4, 3], [0x13, 0xFA, 3],
       [0x13, 0xE6, 4], [0x12, 0xE4, 4], [0x13, 0xFA, 4],
       [0x13, 0xE6, 5], [0x12, 0xE4, 5], [0x13, 0xFA, 5]] ∧
    _build_command_list.length = 19 ∧
    (∀ ch, ch < 6 →
      _build_command_list[1 + 3 * ch]? = some (CMD_WORKSTATE_REQ ++ [ch]) ∧
      _build_command_list[2 + 3 * ch]? = some (CMD_ELECTRIC_REQ ++ [ch]) ∧
      _build_command_list[3 + 3 * ch]? = some (CMD_IR_REQ ++ [ch])) ∧
    (∀ i, nextCmdIndex i = (i + 1) % 19) ∧
    (∀ i, i < 19 → (collectAt i ↔ i = 18)) := by
  have hl : _build_command_list.length = 19 := by decide
  refine ⟨by decide, by decide, by decide, fun i => ?_, fun i hi => ?_⟩
  · rw [nextCmdIndex]
    congr 1
  · simp only [collectAt, nextCmdIndex, hl]
    omega

/-- C7 witness: at channel 3 the three scheduled queries sit at indices 10,
11, 12, and index 18 is exactly where collection fires. -/
theorem c7_command_cycle_witness :
    _build_command_list[10]? = some (CMD_WORKSTATE_REQ ++ [3]) ∧
    _build_command_list[11]? = some (CMD_ELECTRIC_REQ ++ [3]) ∧
    _build_command_list[12]? = some (CMD_IR_REQ ++ [3]) ∧
    (collectAt 18 ↔ (18 : Nat) = 18) :=
  ⟨(c7_command_cycle.2.2.1 3 (by omega)).1, (c7_command_cycle.2.2.1 3 (by omega)).2.1,
    (c7_command_cycle.2.2.1 3 (by omega)).2.2, c7_command_cycle.2.2.2.2 18 (by omega)⟩

/-- C3: every work-state frame of length ≥ 38 parses, and every field is
read from its wire position exactly — in particular the elapsed time is the
little-endian milliseconds at bytes 13–16 integer-divided by 1000, the
formatted string is its HH:MM:SS rendering via divmod by 3600 and 60 with
two-digit zero-padding, the error code is the little-endian 16-bit value at
bytes 36–37, and the parallel-mode flag is decoded iff the frame is strictly
longer than 38 bytes. -/
theorem c3_workstate_fields (data : List Nat) (h : 38 ≤ data.length) :
    ∃ w, parse_workstate data = some w ∧
      w.work_period = leNat (pySlice data 13 17) / 1000 ∧
      w.work_period_ms = leNat (pySlice data 13 17) ∧
      w.work_period_str =
        pad2 (w.work_period / 3600) ++ ":" ++ pad2 (w.work_period % 3600 / 60)
          ++ ":" ++ pad2 (w.work_period % 3600 % 60) ∧
      w.error_code = leNat (pySlice data 36 38) ∧
      (38 < data.length → w.parallel_state = some (byteAt data 38 == 1)) ∧
      (data.length = 38 → w.parallel_state = none) ∧
      w.work_state = byteAt data 3 ∧
      w.work_state_str = WORK_STATE_MAP (byteAt data 3) ∧
      w.capacity_percentage = byteAt data 4 ∧
      w.capacity_done = leNat (pySlice data 5 9) ∧
      w.energy_done = leNat (pySlice data 9 13) ∧
      w.energy_done_wh = (leNat (pySlice data 9 13) : ℚ) / 1000 ∧
      w.battery_type = byteAt data 17 ∧
      w.battery_type_str = BATTERY_TYPE_MAP (byteAt data 17) ∧
      w.unit_serials_num = byteAt data 18 ∧
      w.link_type = byteAt data 19 ∧
      w.full_charged_volt = (leNat (pySlice data 20 22) : ℚ) / 1000 ∧
      w.work_current = (leNat (pySlice data 22 26) : ℚ) / 1000 ∧
      w.charging_battery_num_whole = leNat (pySlice data 26 28) ∧
      w.charging_battery_num_current = leNat (pySlice data 28 30) ∧
      w.min_input_volt = (leNat (pySlice data 30 32) : ℚ) / 1000 ∧
      w.max_output_power = (leNat (pySlice data 32 36) : ℚ) / 1000 := by
  have hlt : ¬ data.length < 38 := by omega
  rw [parse_workstate, if_neg hlt]
  refine ⟨_, rfl, rfl, rfl, rfl, rfl, ?_, ?_, rfl, rfl, rfl, rfl, rfl, rfl,
    rfl, rfl, rfl, rfl, rfl, rfl, rfl, rfl, rfl, rfl⟩
  · intro h38
    show (if 38 < data.length then some (byteAt data 38 == 1) else none) = _
    rw [if_pos h38]
  · intro h38
    show (if 38 < data.length then some (byteAt data 38 == 1) else none) = none
    rw [if_neg (by omega)]

/-- C3 witness: a concrete 39-byte frame satisfies the hypothesis, parses,
and carries the stated error-code and elapsed-time fields. -/
theorem c3_workstate_fields_witness :
    ∃ w, parse_workstate (List.range 39) = some w ∧
      w.error_code = leNat (pySlice (List.range 39) 36 38) ∧
      w.work_period = leNat (pySlice (List.range 39) 13 17) / 1000 := by
  obtain ⟨w, hw, hp, -, -, herr, -⟩ :=
    c3_workstate_fields (List.range 39) (by simp)
  exact ⟨w, hw, herr, hp⟩

/-- Reading one byte past a cons cell. -/
theorem byteAt_cons_succ (a : Nat) (l : List Nat) (i : Nat) :
    byteAt (a :: l) (i + 1) = byteAt l i := rfl

/-- Slicing past a cons cell. -/
theorem pySlice_cons_succ (a : Nat) (l : List Nat) (i j : Nat) :
    pySlice (a :: l) (i + 1) (j + 1) = pySlice l i j := by
  simp [pySlice, Nat.succ_sub_succ]

/-- C6 (amended): a prefixed hardware-info frame (command byte at offset 1)
and the same frame with the prefix byte removed (command byte at offset 0)
decode to identical version/serial output given identical trailing bytes —
provided the prefix byte is not itself the hardware-info command byte 0xE1,
since the decoder checks offset 0 first. -/
theorem c6_prefixed_equiv (p : Nat) (t : List Nat)
    (hp : p % 256 ≠ RESP_HARDWARE_INFO) (ht : 12 ≤ t.length) :
    parse_hardware_info (p :: RESP_HARDWARE_INFO :: t) =
      parse_hardware_info (RESP_HARDWARE_INFO :: t) := by
  have hb0p : byteAt (p :: RESP_HARDWARE_INFO :: t) 0 = p % 256 := rfl
  have hb1p : byteAt (p :: RESP_HARDWARE_INFO :: t) 1 = RESP_HARDWARE_INFO := rfl
  have hb0u : byteAt (RESP_HARDWARE_INFO :: t) 0 = RESP_HARDWARE_INFO := rfl
  have hl1 : ¬ (p :: RESP_HARDWARE_INFO :: t).length < 5 := by simp; omega
  have hl2 : ¬ (RESP_HARDWARE_INFO :: t).length < 5 := by simp; omega
  have hc0 : ¬ byteAt (p :: RESP_HARDWARE_INFO :: t) 0 = RESP_HARDWARE_INFO := by
    rw [hb0p]; exact hp
  have hgt : (1 : Nat) < (p :: RESP_HARDWARE_INFO :: t).length := by simp
  have hl3 : ¬ (p :: RESP_HARDWARE_INFO :: t).length < 1 + 13 := by simp; omega
  have hl4 : ¬ (RESP_HARDWARE_INFO :: t).length < 0 + 13 := by simp; omega
  rw [parse_hardware_info, parse_hardware_info]
  rw [if_neg hl1, if_neg hc0, if_pos (⟨hgt, hb1p⟩ :
    (1 : Nat) < (p :: RESP_HARDWARE_INFO :: t).length ∧
      byteAt (p :: RESP_HARDWARE_INFO :: t) 1 = RESP_HARDWARE_INFO),
    if_neg hl2, if_pos hb0u]
  rw [parseHardwareInfoAt, parseHardwareInfoAt]
  rw [if_neg hl3, if_neg hl4]
  have h2 : ∀ i : Nat, byteAt (p :: RESP_HARDWARE_INFO :: t) (i + 2) = byteAt t i :=
    fun i => rfl
  have h1 : ∀ i : Nat, byteAt (RESP_HARDWARE_INFO :: t) (i + 1) = byteAt t i :=
    fun i => rfl
  have hs : pySlice (p :: RESP_HARDWARE_INFO :: t) 6 14 = pySlice (RESP_HARDWARE_INFO :: t) 5 13 := by
    show pySlice (p :: RESP_HARDWARE_INFO :: t) (5 + 1) (13 + 1) = _
    rw [pySlice_cons_succ]
  show some (toString (byteAt (p :: RESP_HARDWARE_INFO :: t) 2) ++ "." ++
      toString (byteAt (p :: RESP_HARDWARE_INFO :: t) 3),
      toString (byteAt (p :: RESP_HARDWARE_INFO :: t) 4) ++ "." ++
      toString (byteAt (p :: RESP_HARDWARE_INFO :: t) 5),
      hex16 (leNat (pySlice (p :: RESP_HARDWARE_INFO :: t) 6 14))) = _
  rw [show byteAt (p :: RESP_HARDWARE_INFO :: t) 2 = byteAt t 0 from rfl,
    show byteAt (p :: RESP_HARDWARE_INFO :: t) 3 = byteAt t 1 from rfl,
    show byteAt (p :: RESP_HARDWARE_INFO :: t) 4 = byteAt t 2 from rfl,
    show byteAt (p :: RESP_HARDWARE_INFO :: t) 5 = byteAt t 3 from rfl, hs]
  rfl

/-- C6 witness: a concrete prefixed frame with prefix byte 0x0A and its
unprefixed counterpart decode identically. -/
theorem c6_prefixed_equiv_witness :
    parse_hardware_info (0x0A :: RESP_HARDWARE_INFO ::
        [1, 2, 3, 4, 5, 6, 7, 8, 9, 10, 11, 12]) =
      parse_hardware_info (RESP_HARDWARE_INFO ::
        [1, 2, 3, 4, 5, 6, 7, 8, 9, 10, 11, 12]) :=
  c6_prefixed_equiv 0x0A [1, 2, 3, 4, 5, 6, 7, 8, 9, 10, 11, 12]
    (by decide) (by decide)

/-- C6 counterexample: when the prefix byte is itself 0xE1, the decoder
takes the offset-0 path on the prefixed frame, and the two decodes differ —
so the claim as stated (any prefixed frame with the command byte at
offset 1) is false. -/
theorem c6_prefix_counterexample :
    parse_hardware_info [0xE1, 0xE1, 1, 2, 3, 4, 5, 6, 7, 8, 9, 10, 11, 12] ≠
      parse_hardware_info [0xE1, 1, 2, 3, 4, 5, 6, 7, 8, 9, 10, 11, 12] := by
  decide

/-- C2 counterexample: a 15-byte electrical frame is accepted (length ≥ 15,
short format since 15 ≤ 35) yet decodes 0 cell-voltage entries, not the 8
the claim requires for every frame of length ≤ 35 — the cell loop stops at
the end of the frame. -/
theorem c2_short_frame_counterexample :
    (parse_electric [0, 0xE5, 0, 0, 0, 0, 0, 0, 0, 0, 0, 0, 0, 0, 0]).map
        (fun e => e.cell_voltages.length) = some 0 ∧ (0 : Nat) ≠ 8 := by
  constructor
  · rfl
  · decide

/-- C2 (amended): every electrical frame of length ≥ 15 parses; in the long
format (length > 35) the voltage fields are 4 bytes, currents 4 bytes, and
`min 16 ((len − 19) / 2)` cell entries are decoded — exactly 16 unless the
frame truncates mid-array; in the short format (length ≤ 35) the voltage
fields are 2 bytes, currents 4 bytes, and `min 8 ((len − 15) / 2)` cell
entries are decoded — exactly 8 unless the frame truncates mid-array; and
every decoded voltage, current and cell value is the little-endian unsigned
wire integer at its position divided by 1000. -/
theorem c2_cell_count_and_scaling (data : List Nat) (h : 15 ≤ data.length) :
    ∃ e, parse_electric data = some e ∧
      e.channel_id = byteAt data 2 ∧
      (35 < data.length →
        e.input_voltage = (leNat (pySlice data 3 7) : ℚ) / 1000 ∧
        e.input_current = (leNat (pySlice data 7 11) : ℚ) / 1000 ∧
        e.output_voltage = (leNat (pySlice data 11 15) : ℚ) / 1000 ∧
        e.charging_current = (leNat (pySlice data 15 19) : ℚ) / 1000 ∧
        e.cell_voltages = (List.range (min 16 ((data.length - 19) / 2))).map
          (fun i => (leNat (pySlice data (19 + 2 * i) (19 + 2 * i + 2)) : ℚ) / 1000) ∧
        e.cell_voltages.length = min 16 ((data.length - 19) / 2)) ∧
      (data.length ≤ 35 →
        e.input_voltage = (leNat (pySlice data 3 5) : ℚ) / 1000 ∧
        e.input_current = (leNat (pySlice data 5 9) : ℚ) / 1000 ∧
        e.output_voltage = (leNat (pySlice data 9 11) : ℚ) / 1000 ∧
        e.charging_current = (leNat (pySlice data 11 15) : ℚ) / 1000 ∧
        e.cell_voltages = (List.range (min 8 ((data.length - 15) / 2))).map
          (fun i => (leNat (pySlice data (15 + 2 * i) (15 + 2 * i + 2)) : ℚ) / 1000) ∧
        e.cell_voltages.length = min 8 ((data.length - 15) / 2)) := by
  have hlt : ¬ data.length < 15 := by omega
  rw [parse_electric, if_neg hlt]
  refine ⟨_, rfl, rfl, ?_, ?_⟩
  · intro h35
    simp only [if_pos h35]
    have hcv : (collect2LE data (7 + 4 + 4 + 4) 16).map (fun v : Nat => (v : ℚ) / 1000)
        = (List.range (min 16 ((data.length - 19) / 2))).map
          (fun i => (leNat (pySlice data (19 + 2 * i) (19 + 2 * i + 2)) : ℚ) / 1000) := by
      rw [collect2LE_eq, List.map_map]
      have h19 : (7 + 4 + 4 + 4 : Nat) = 19 := by norm_num
      rw [h19]
      rfl
    refine ⟨trivial, trivial, trivial, trivial, hcv, ?_⟩
    rw [hcv]
    simp
  · intro h35
    have hn : ¬ 35 < data.length := by omega
    simp only [if_neg hn]
    have hcv : (collect2LE data (5 + 4 + 2 + 4) 8).map (fun v : Nat => (v : ℚ) / 1000)
        = (List.range (min 8 ((data.length - 15) / 2))).map
          (fun i => (leNat (pySlice data (15 + 2 * i) (15 + 2 * i + 2)) : ℚ) / 1000) := by
      rw [collect2LE_eq, List.map_map]
      have h15 : (5 + 4 + 2 + 4 : Nat) = 15 := by norm_num
      rw [h15]
      rfl
    refine ⟨trivial, trivial, trivial, trivial, hcv, ?_⟩
    rw [hcv]
    simp

/-- C2 witness: the spec's own worked example — a 31-byte short-format frame
— satisfies the hypothesis and decodes all four scaled electrical fields and
exactly 8 cell entries. -/
theorem c2_cell_count_and_scaling_witness :
    ∃ e, parse_electric
        ([0, 0xE5, 2, 0xA0, 0x0F, 0x90, 0x01, 0, 0, 0xB8, 0x0B, 0x58, 0x02,
          0, 0] ++ List.replicate 16 0) = some e ∧
      e.cell_voltages.length = 8 := by
  obtain ⟨e, he, -, -, hshort⟩ := c2_cell_count_and_scaling
    ([0, 0xE5, 2, 0xA0, 0x0F, 0x90, 0x01, 0, 0, 0xB8, 0x0B, 0x58, 0x02,
      0, 0] ++ List.replicate 16 0) (by simp)
  refine ⟨e, he, ?_⟩
  have hlen := (hshort (by simp)).2.2.2.2.2
  rw [hlen]
  simp

/-- C4 counterexample: a 20-byte IR frame infers 16 cells from its length
but only 17 payload bytes follow the 3-byte header, so the loop decodes 8
values, not the 16 the claim states. -/
theorem c4_ir_20byte_counterexample :
    (parse_ir [0, 0xFB, 1, 10, 0, 10, 0, 10, 0, 10, 0, 10, 0, 10, 0, 10, 0,
        10, 0, 7]).map (fun r => r.ir_raw.length) = some 8 ∧ (8 : Nat) ≠ 16 := by
  constructor
  · rfl
  · decide

/-- C4 (amended): every IR frame of length ≥ 5 parses; the decoded values
are the little-endian 16-bit counts (units of 0.1 mΩ) at consecutive wire
positions from byte 3, and their number is the length-inferred cell count
truncated to the available bytes, `min (irNumCells len) ((len − 3) / 2)` —
so a frame of exactly 20 bytes yields 8 values (not 16; 16 requires ≥ 35
bytes) and a frame of exactly 15 bytes yields 6; the primary `ir_mohm` is
the first value divided by 10 when that value lies strictly between 0 and
10000, and `none` when the first value is 0, at least 10000, or absent. -/
theorem c4_ir_decoding (data : List Nat) (h : 5 ≤ data.length) :
    ∃ r, parse_ir data = some r ∧
      r.ir_raw = (List.range (min (irNumCells data.length) ((data.length - 3) / 2))).map
        (fun i => leNat (pySlice data (3 + 2 * i) (3 + 2 * i + 2))) ∧
      (data.length = 20 → r.ir_raw.length = 8) ∧
      (data.length = 15 → r.ir_raw.length = 6) ∧
      (35 ≤ data.length → r.ir_raw.length = 16) ∧
      (∀ v vs, r.ir_raw = v :: vs →
        ((0 < v ∧ v < 10000) → r.ir_mohm = some ((v : ℚ) / 10)) ∧
        (v = 0 → r.ir_mohm = none) ∧
        (10000 ≤ v → r.ir_mohm = none)) ∧
      (r.ir_raw = [] → r.ir_mohm = none) := by
  have hlt : ¬ data.length < 5 := by omega
  rw [parse_ir, if_neg hlt]
  have hraw : collect2LE data 3
      (if 20 ≤ data.length then 16
       else if 15 < data.length then 8
       else if data.length = 15 then 6
       else (data.length - 3) / 2) =
      (List.range (min (irNumCells data.length) ((data.length - 3) / 2))).map
        (fun i => leNat (pySlice data (3 + 2 * i) (3 + 2 * i + 2))) := by
    rw [collect2LE_eq, irNumCells]
  refine ⟨_, rfl, hraw, ?_, ?_, ?_, ?_, ?_⟩
  · intro h20
    rw [hraw, h20]
    simp [irNumCells]
  · intro h15
    rw [hraw, h15]
    simp [irNumCells]
  · intro h35
    rw [hraw]
    have h1 : irNumCells data.length = 16 := by rw [irNumCells, if_pos (by omega)]
    rw [h1]
    have h2 : min 16 ((data.length - 3) / 2) = 16 := by omega
    rw [h2]
    simp
  · intro v vs hcons
    dsimp only at hcons ⊢
    rw [hcons]
    refine ⟨?_, ?_, ?_⟩
    · intro hv
      show (if 0 < v ∧ v < 10000 then some ((v : ℚ) / 10) else none) = _
      rw [if_pos hv]
    · intro hv
      show (if 0 < v ∧ v < 10000 then some ((v : ℚ) / 10) else none) = none
      rw [if_neg (by omega)]
    · intro hv
      show (if 0 < v ∧ v < 10000 then some ((v : ℚ) / 10) else none) = none
      rw [if_neg (by omega)]
  · intro hnil
    dsimp only at hnil ⊢
    rw [hnil]

/-- C4 witness: a concrete 15-byte frame satisfies the hypothesis and
decodes exactly 6 values. -/
theorem c4_ir_decoding_witness :
    ∃ r, parse_ir [0, 0xFB, 2, 50, 0, 50, 0, 50, 0, 50, 0, 50, 0, 50, 0]
        = some r ∧ r.ir_raw.length = 6 := by
  obtain ⟨r, hr, -, -, h15, -⟩ :=
    c4_ir_decoding [0, 0xFB, 2, 50, 0, 50, 0, 50, 0, 50, 0, 50, 0, 50, 0]
      (by simp)
  exact ⟨r, hr, h15 (by simp)⟩

/-- C8: the dispatcher is a total fold over the queued frames, and a frame
that is too short for the dispatcher, carries an unknown command byte, is
addressed outside `[0, 6)`, or is shorter than its command's minimum valid
length is skipped: removing it from anywhere in the batch leaves the result
of `parse_responses` — and hence the parsing of every remaining frame —
unchanged. -/
theorem c8_skip_bad_frames (xs ys : List (List Nat)) (raw : List Nat)
    (h : skippedFrame raw) :
    parse_responses (xs ++ raw :: ys) = parse_responses (xs ++ ys) := by
  have hfold : (xs ++ raw :: ys).foldl parseStep ⟨initChanMap, none⟩
      = (xs ++ ys).foldl parseStep ⟨initChanMap, none⟩ := by
    rw [List.foldl_append, List.foldl_append, List.foldl_cons]
    congr 1
    apply parseStep_skipped _ _ ?_ h
    rw [keys_foldl]
    decide
  simp only [parse_responses, hfold]

/-- C8 witness: an unknown-command frame in the middle of a batch is
dropped without affecting the frames around it. -/
theorem c8_skip_bad_frames_witness :
    parse_responses [[0, 0xE5, 9, 9, 9], [0, 0x42, 1], [0, 0xFB, 1, 10, 0]] =
      parse_responses [[0, 0xE5, 9, 9, 9], [0, 0xFB, 1, 10, 0]] :=
  c8_skip_bad_frames [[0, 0xE5, 9, 9, 9]] [[0, 0xFB, 1, 10, 0]] [0, 0x42, 1]
    (Or.inr ⟨by decide, Or.inl ⟨by decide, by decide, by decide⟩⟩)

/-- C9: for every batch, the returned channel map's key sequence is exactly
the channel indices 0–5 in order (so frames addressed outside `[0, 6)` are
discarded without adding a key), and a channel for which no frame supplied
data is mapped to the empty dict — "unknown this cycle", not a sentinel. -/
theorem c9_channel_keys (rs : List (List Nat)) :
    (parse_responses rs).1.map Prod.fst = [0, 1, 2, 3, 4, 5] ∧
    (∀ ch, ch < 6 → (∀ raw ∈ rs, ¬ suppliesData raw ch) →
      (parse_responses rs).1.lookup ch = some {}) := by
  refine ⟨keys_parse_responses rs, ?_⟩
  intro ch hch hnone
  show ((rs.foldl parseStep ⟨initChanMap, none⟩).parsed).lookup ch = some {}
  rw [lookup_foldl_not_supplies rs _ ch hnone]
  show initChanMap.lookup ch = some {}
  rw [initChanMap]
  exact List.lookup_graph (fun _ => ({} : ChannelDict)) (List.mem_range.mpr hch)

/-- C9 witness: a batch with one frame for channel 9 keeps the key set
0–5 and leaves channel 2 as the empty dict. -/
theorem c9_channel_keys_witness :
    (parse_responses [[0, 0xE5, 9, 9, 9]]).1.map Prod.fst = [0, 1, 2, 3, 4, 5] ∧
    (parse_responses [[0, 0xE5, 9, 9, 9]]).1.lookup 2 = some {} :=
  ⟨(c9_channel_keys [[0, 0xE5, 9, 9, 9]]).1,
    (c9_channel_keys [[0, 0xE5, 9, 9, 9]]).2 2 (by omega)
      (by
        intro raw hm hs
        simp only [List.mem_singleton] at hm
        subst hm
        exact absurd hs.2.1 (by decide))⟩

/-- C10: when the batch is empty `_collect_and_push` returns before parsing
and the stored alarm-tone state (indeed the whole state) is unchanged; when
the batch is non-empty but contains no alarm-tone frame, the stored
alarm-tone state is overwritten with `none`, even if a previous cycle had
stored a concrete value. -/
theorem c10_alarm_state (st : CoordState) (rs : List (List Nat))
    (rssi : Option Int) :
    (rs = [] → collect_and_push st rs rssi = (st, none)) ∧
    (rs ≠ [] → (∀ raw ∈ rs, ¬(3 ≤ raw.length ∧ byteAt raw 1 = RESP_ALARM_TONE)) →
      (collect_and_push st rs rssi).1.alarmTone = none) := by
  constructor
  · intro h
    subst h
    rfl
  · intro hne hno
    have halarm : (parse_responses rs).2 = none := by
      show ((rs.foldl parseStep ⟨initChanMap, none⟩)).alarm = none
      rw [alarm_foldl_no_alarm rs _ hno]
    simp only [collect_and_push]
    rw [if_neg (by simp [List.isEmpty_iff, hne])]
    split
    · exact halarm
    · exact halarm

/-- C10 witness: a non-empty batch with a single electrical frame resets a
previously stored concrete alarm-tone value to unknown. -/
theorem c10_alarm_state_witness :
    (collect_and_push ⟨none, some true⟩ [[0, 0xE5, 1, 1, 1]] none).1.alarmTone
      = none :=
  (c10_alarm_state ⟨none, some true⟩ [[0, 0xE5, 1, 1, 1]] none).2 (by simp)
    (by
      intro raw hm
      simp only [List.mem_singleton] at hm
      subst hm
      intro hc
      exact absurd hc.2 (by decide))

/-- C1: for a cycle with a non-empty response batch, if a snapshot was
published before and the freshly parsed channel map is structurally equal
to the channel part of the last published snapshot, nothing is published
and the stored last-published snapshot is unchanged — whatever the current
signal strength is; conversely, if no snapshot was ever published or some
channel's entry differs from the last published one (including a channel
becoming or ceasing to be the empty dict), a snapshot consisting of the
fresh channel map with the current metadata merged in is published and
stored. -/
theorem c1_change_detection (st : CoordState) (rs : List (List Nat))
    (rssi : Option Int) (hrs : rs ≠ []) :
    (∀ lp, st.lastPushed = some lp → lp.channels = (parse_responses rs).1 →
      (collect_and_push st rs rssi).2 = none ∧
      (collect_and_push st rs rssi).1.lastPushed = st.lastPushed) ∧
    ((st.lastPushed = none ∨ ∃ lp ch, st.lastPushed = some lp ∧ ch < 6 ∧
        (parse_responses rs).1.lookup ch ≠ lp.channels.lookup ch) →
      (collect_and_push st rs rssi).2 = some ⟨(parse_responses rs).1, rssi⟩ ∧
      (collect_and_push st rs rssi).1.lastPushed
        = some ⟨(parse_responses rs).1, rssi⟩) := by
  have hne : ¬((rs.isEmpty) = true) := by simp [List.isEmpty_iff, hrs]
  have hkeys := keys_parse_responses rs
  have hnd : ((parse_responses rs).1.map Prod.fst).Nodup := by
    rw [hkeys]
    decide
  constructor
  · intro lp hlp heq
    have hchanged : sensor_data_changed (some lp) (parse_responses rs).1
        = false := by
      show ((parse_responses rs).1.any
        fun p => !(lp.channels.lookup p.1 == some p.2)) = false
      rw [List.any_eq_false]
      intro p hp
      have hl : (parse_responses rs).1.lookup p.1 = some p.2 :=
        lookup_eq_some_self _ p hnd hp
      rw [heq, hl]
      simp
    have hcond : (({ st with alarmTone := (parse_responses rs).2 }
        : CoordState).lastPushed.isSome
        && !(sensor_data_changed ({ st with
              alarmTone := (parse_responses rs).2 } : CoordState).lastPushed
            (parse_responses rs).1)) = true := by
      show (st.lastPushed.isSome
        && !(sensor_data_changed st.lastPushed (parse_responses rs).1)) = true
      rw [hlp, hchanged]
      rfl
    simp only [collect_and_push]
    rw [if_neg hne, if_pos hcond]
    exact ⟨rfl, rfl⟩
  · intro hB
    have hchanged : sensor_data_changed st.lastPushed (parse_responses rs).1
        = true := by
      rcases hB with hnone | ⟨lp, ch, hlp, hch, hneq⟩
      · rw [hnone]
        rfl
      · rw [hlp]
        show ((parse_responses rs).1.any
          fun p => !(lp.channels.lookup p.1 == some p.2)) = true
        rw [List.any_eq_true]
        have hmem : ch ∈ (parse_responses rs).1.map Prod.fst := by
          rw [hkeys]
          simp only [List.mem_cons, List.not_mem_nil, or_false]
          omega
        obtain ⟨v, hv⟩ := exists_lookup_of_mem_keys _ ch hmem
        refine ⟨(ch, v), mem_of_lookup_eq_some _ ch v hv, ?_⟩
        have hvne : lp.channels.lookup ch ≠ some v := by
          intro hc
          exact hneq (by rw [hv, hc])
        simp [hvne]
    have hcond : ¬((({ st with alarmTone := (parse_responses rs).2 }
        : CoordState).lastPushed.isSome
        && !(sensor_data_changed ({ st with
              alarmTone := (parse_responses rs).2 } : CoordState).lastPushed
            (parse_responses rs).1)) = true) := by
      show ¬((st.lastPushed.isSome
        && !(sensor_data_changed st.lastPushed (parse_responses rs).1)) = true)
      rw [hchanged]
      simp
    simp only [collect_and_push]
    rw [if_neg hne, if_neg hcond]
    exact ⟨rfl, rfl⟩

/-- C1 witness: starting from a state that never published, one cycle with
one electrical frame publishes the fresh map with the metadata merged in
and stores it. -/
theorem c1_change_detection_witness :
    (collect_and_push ⟨none, none⟩ [[0, 0xE5, 1, 1, 1]] (some (-42))).2
        = some ⟨(parse_responses [[0, 0xE5, 1, 1, 1]]).1, some (-42)⟩ ∧
    (collect_and_push ⟨none, none⟩ [[0, 0xE5, 1, 1, 1]]
        (some (-42))).1.lastPushed
        = some ⟨(parse_responses [[0, 0xE5, 1, 1, 1]]).1, some (-42)⟩ :=
  (c1_change_detection ⟨none, none⟩ [[0, 0xE5, 1, 1, 1]] (some (-42))
    (by simp)).2 (Or.inl rfl)
